import Mathlib

/-!
# Verification of the warp-drop transfer core

A shallow embedding of the warp-drop repository's transfer protocol core:
the authenticated download handler (`handleDownload`), the dual-path upload
pipeline (`handleUpload` / `handleRawUpload` / `findUniqueFilename`), the
directory archive streamer (`ZipDirectory`), and the resuming client
(`Receive`).  Each definition is translated from the Go source files
`internal/server/http.go`, `internal/server/zip.go`,
`internal/client/receiver.go` and `cmd/warp/main.go`.

Byte strings are modelled as `List Nat` of Unicode scalar values; for the
ASCII payloads exercised here this coincides with Go's byte-level view.
-/

namespace WarpDrop

/-- Byte strings, modelled as lists of Unicode scalar values. -/
abbrev Bytes := List Nat

/-- The raw bytes of a Go string (scalar values; byte-exact for ASCII). -/
def strBytes (s : String) : Bytes := s.data.map Char.toNat

/-! ## String helpers (Go `strings`, `path/filepath`, `net/url`)

All operations recurse structurally over the string's character list, so that
every definition evaluates inside the kernel. -/

/-- Go `strings.HasPrefix`. -/
def startsWithChars (s pre : String) : Bool := pre.data.isPrefixOf s.data

/-- Go `strings.HasSuffix`. -/
def endsWithChars (s suf : String) : Bool := suf.data.isSuffixOf s.data

/-- Go `strings.TrimPrefix`: drop `pre` from the front of `s` when present. -/
def trimPre (s pre : String) : String :=
  if startsWithChars s pre then String.mk (s.data.drop pre.data.length) else s

/-- Go `strings.TrimSuffix`: drop `suf` from the end of `s` when present. -/
def trimSuffixStr (s suf : String) : String :=
  if endsWithChars s suf then
    String.mk (s.data.take (s.data.length - suf.data.length))
  else s

/-- Go `strings.TrimSpace`. -/
def trimSpaces (s : String) : String :=
  String.mk
    (((s.data.dropWhile Char.isWhitespace).reverse.dropWhile Char.isWhitespace).reverse)

/-- Go `strings.ToLower`. -/
def toLowerStr (s : String) : String := String.mk (s.data.map Char.toLower)

/-- Split a character list on a separator character; the list of fragments is
never empty. -/
def splitChars (sep : Char) : List Char → List (List Char)
  | [] => [[]]
  | c :: rest =>
    let r := splitChars sep rest
    if c = sep then [] :: r
    else
      match r with
      | [] => [[c]]
      | h :: t => (c :: h) :: t

/-- Go `strings.Split` with a one-character separator. -/
def splitOnChar (s : String) (sep : Char) : List String :=
  (splitChars sep s.data).map String.mk

/-- Go `filepath.Base` on POSIX paths: `""` gives `"."`, trailing slashes are
stripped, the final path component is returned, an all-slash path gives `"/"`. -/
def baseName (p : String) : String :=
  if p = "" then "."
  else
    let r := p.toList.reverse.dropWhile (fun c => c == '/')
    let comp := r.takeWhile (fun c => c != '/')
    if comp = [] then "/" else String.mk comp.reverse

/-- Go `filepath.Ext`: the suffix of the final component starting at the last
dot, or `""` when the final component has no dot. -/
def extOf (s : String) : String :=
  let r := s.toList.reverse
  match r.dropWhile (fun c => c != '.' && c != '/') with
  | '.' :: _ => String.mk ('.' :: (r.takeWhile (fun c => c != '.' && c != '/')).reverse)
  | _ => ""

/-- Go `strings.Trim(v, "\"")`: strip all leading and trailing quote characters. -/
def trimQuotes (s : String) : String :=
  String.mk (((s.toList.dropWhile (fun c => c == '"')).reverse.dropWhile
    (fun c => c == '"')).reverse)

/-- Value of a hexadecimal digit, as used by `net/url` percent-decoding. -/
def hexVal (c : Char) : Option Nat :=
  if '0' ≤ c ∧ c ≤ '9' then some (c.toNat - 48)
  else if 'a' ≤ c ∧ c ≤ 'f' then some (c.toNat - 87)
  else if 'A' ≤ c ∧ c ≤ 'F' then some (c.toNat - 55)
  else none

/-- Character-list worker for `queryUnescape`: `%XY` decodes to the scalar
`16*X+Y`, `+` decodes to a space, a malformed escape fails. -/
def unescapeChars : List Char → Option (List Char)
  | [] => some []
  | '%' :: a :: b :: rest =>
    match hexVal a, hexVal b, unescapeChars rest with
    | some ha, some hb, some r => some (Char.ofNat (16 * ha + hb) :: r)
    | _, _, _ => none
  | '%' :: _ => none
  | '+' :: rest => (unescapeChars rest).map (fun r => ' ' :: r)
  | c :: rest => (unescapeChars rest).map (fun r => c :: r)

/-- Go `url.QueryUnescape`, at the scalar-value level. -/
def queryUnescape (s : String) : Option String :=
  (unescapeChars s.toList).map String.mk

/-! ## Filesystem model

A node of the server's filesystem: a regular file with its content, or a
directory with named children.  Directory entries are stored in the lexical
order in which `filepath.Walk` visits them. -/

/-- A filesystem node: regular file or directory. -/
inductive Node where
  | file (content : Bytes)
  | dir (entries : List (String × Node))

/-- Go `os.Stat` over an abstract path table: the empty path always fails
(`ENOENT`), any other path resolves through the table. -/
def statFS (fs : String → Option Node) (p : String) : Option Node :=
  if p = "" then none else fs p

/-! ## Archive streamer (`internal/server/zip.go`) -/

/-- One archive member: its name (the path relative to the walked root) and
its deflate-compressed data. -/
structure ZipEntry where
  name : String
  data : Bytes
deriving DecidableEq, Repr

/-- The Go standard library's flate codec, modelled solely through its
lossless-roundtrip contract (`inflate (deflate b) = b`); the repository
treats it as opaque. -/
def deflate (b : Bytes) : Bytes := b

/-- Inverse of `deflate` (see there). -/
def inflate (b : Bytes) : Bytes := b

/-- Relative-path accumulation mirroring `filepath.Walk` + `filepath.Rel`:
the walked path of a child, relative to the root. -/
def relJoin (rel n : String) : String :=
  if rel = "" then n else rel ++ "/" ++ n

mutual

/-- The members `ZipDirectory`'s `filepath.Walk` callback emits for one node:
directories contribute nothing themselves, each regular file becomes one
deflate-compressed member named by its path relative to the root, in walk
order. -/
def zipEntriesOf : String → Node → List ZipEntry
  | rel, Node.file c => [⟨rel, deflate c⟩]
  | rel, Node.dir es => zipEntriesList rel es

/-- Walk the children of a directory in order, concatenating their members. -/
def zipEntriesList : String → List (String × Node) → List ZipEntry
  | _, [] => []
  | rel, (n, t) :: rest => zipEntriesOf (relJoin rel n) t ++ zipEntriesList rel rest

end

/-- `ZipDirectory` from `internal/server/zip.go`: stream a zip of the tree
rooted at the source directory; the root directory itself is skipped by the
walk callback (`info.IsDir()`), so the archive is the ordered member list of
the tree. -/
def ZipDirectory (t : Node) : List ZipEntry := zipEntriesOf "" t

mutual

/-- Specification-side view: the regular files of a tree with their paths
relative to the root, in walk order. -/
def filesOf : String → Node → List (String × Bytes)
  | rel, Node.file c => [(rel, c)]
  | rel, Node.dir es => filesOfList rel es

/-- Children clause of `filesOf`. -/
def filesOfList : String → List (String × Node) → List (String × Bytes)
  | _, [] => []
  | rel, (n, t) :: rest => filesOf (relJoin rel n) t ++ filesOfList rel rest

end

mutual

/-- Number of regular files in a tree. -/
def countFiles : Node → Nat
  | Node.file _ => 1
  | Node.dir es => countFilesList es

/-- Children clause of `countFiles`. -/
def countFilesList : List (String × Node) → Nat
  | [] => 0
  | (_, t) :: rest => countFiles t + countFilesList rest

end

/-- Extract an archive: decompress every member. -/
def unzipArchive (es : List ZipEntry) : List (String × Bytes) :=
  es.map (fun e => (e.name, inflate e.data))

/-! ## HTTP data model -/

/-- An HTTP response: status, the headers the core sets, and the body. A
header field holding `""` models an absent header. -/
structure Response where
  status : Nat
  contentType : String
  contentDisposition : String
  contentRange : String
  contentLength : Int
  cacheControl : String
  pragma : String
  expires : String
  body : Bytes
deriving DecidableEq, Repr

/-- One part of a multipart body: its declared filename (`""` for a non-file
field) and the bytes the server manages to read from it; `broken` marks a
part whose copy to disk fails mid-stream (connection drop, I/O error), in
which case `data` holds the partial bytes already written. -/
structure Part where
  fileName : String
  data : Bytes
  broken : Bool
deriving DecidableEq, Repr

/-- An inbound HTTP request.  `rangeStart = some n` models a well-formed
header `Range: bytes=n-` (the only range form the code parses); `none` models
an absent range header.  `xFileName` is the `X-File-Name` header (`""` when
absent).  `bodyData`/`bodyBroken` are the raw-body view of the request body
(`bodyBroken` marks a mid-stream failure after `bodyData` was received), and
`parts` is its multipart-parsed view; the chosen upload path reads exactly
one of the two views. -/
structure Request where
  method : String
  path : String
  rangeStart : Option Int
  xFileName : String
  contentLength : Int
  bodyData : Bytes
  bodyBroken : Bool
  parts : List Part

/-- The per-process session configuration (`server.Server`). -/
structure Session where
  interfaceName : String
  token : String
  srcPath : String
  hostMode : Bool
  uploadDir : String
  textContent : String

/-- `protocol.PathPrefix`: the download endpoint's path root. -/
def downloadRoot : String := "/d/"

/-- `protocol.UploadPathPrefix`: the upload endpoint's path root. -/
def uploadRoot : String := "/u/"

/-- `http.Error(w, msg, status)`: a plain-text error response carrying
`msg` plus a newline and none of the payload's bytes. -/
def errResp (status : Nat) (msg : String) : Response :=
  { status := status
    contentType := "text/plain; charset=utf-8"
    contentDisposition := ""
    contentRange := ""
    contentLength := ((msg.length + 1 : Nat) : Int)
    cacheControl := ""
    pragma := ""
    expires := ""
    body := strBytes (msg ++ "\n") }

/-- The text-mode response: the whole blob in one `200`, `text/plain`, with
caching fully disabled, and no attachment disposition. -/
def textResp (t : String) : Response :=
  { status := 200
    contentType := "text/plain; charset=utf-8"
    contentDisposition := ""
    contentRange := ""
    contentLength := (t.length : Int)
    cacheControl := "no-store, no-cache, must-revalidate, max-age=0"
    pragma := "no-cache"
    expires := "0"
    body := strBytes t }

/-- The byte stream of a zip archive as sent on the wire; the container's
exact framing is abstracted, members appear in walk order. -/
def zipBytes (es : List ZipEntry) : Bytes :=
  es.flatMap (fun e => strBytes e.name ++ e.data)

/-- The directory-download response: `application/zip`, attachment-named
after the source directory, streaming the archive. -/
def zipResp (name : String) (es : List ZipEntry) : Response :=
  { status := 200
    contentType := "application/zip"
    contentDisposition := "attachment; filename=\"" ++ name ++ "\""
    contentRange := ""
    contentLength := ((zipBytes es).length : Int)
    cacheControl := ""
    pragma := ""
    expires := ""
    body := zipBytes es }

/-- Go `http.ServeFile` on a regular file of content `c`, for the range
header shapes that can reach it from `handleDownload` (`none`, or a parsed
`bytes=n-` with `n ≤ 0`).  No range gives a full `200`; `bytes=0-` is a valid
range giving a `206` of the whole file when non-empty and a `416` on an empty
file; a negative `n` comes from a header `bytes=n-` that `net/http`'s range
parser rejects as malformed, giving a `416`.  The content type is modelled as
the sniffing fallback `application/octet-stream`. -/
def serveFileModel (disp : String) (c : Bytes) (rangeStart : Option Int) : Response :=
  let S : Int := (c.length : Int)
  let full : Response :=
    { status := 200
      contentType := "application/octet-stream"
      contentDisposition := disp
      contentRange := ""
      contentLength := S
      cacheControl := ""
      pragma := ""
      expires := ""
      body := c }
  match rangeStart with
  | none => full
  | some n =>
    if n = 0 then
      if c.length = 0 then
        { errResp 416 "invalid range" with contentDisposition := disp, contentRange := "bytes */0" }
      else
        { full with status := 206
                    contentRange := "bytes 0-" ++ toString (S - 1) ++ "/" ++ toString S }
    else
      { errResp 416 "invalid range" with
          contentDisposition := disp
          contentRange := "bytes */" ++ toString S }

/-- `handleDownload` from `internal/server/http.go`: token gate, then text
blob, then stat of the source path (404 when missing), then directory
archive, then ranged or full file service.  A request carrying
`Range: bytes=n-` with `n > 0` seeks to `n` — on a regular file the seek
succeeds for every such `n`, including offsets at or past end-of-file — and
answers `206` with `Content-Range: bytes n-(size-1)/size` and the remainder
of the file; anything else falls through to `http.ServeFile`. -/
def handleDownload (s : Session) (fs : String → Option Node) (r : Request) : Response :=
  let p := trimPre r.path downloadRoot
  if p ≠ s.token then errResp 403 "forbidden"
  else if s.textContent ≠ "" then textResp s.textContent
  else
    match statFS fs s.srcPath with
    | none => errResp 404 "not found"
    | some (Node.dir es) =>
      zipResp (baseName s.srcPath ++ ".zip") (ZipDirectory (Node.dir es))
    | some (Node.file c) =>
      let disp := "attachment; filename=\"" ++ baseName s.srcPath ++ "\""
      match r.rangeStart with
      | some start =>
        if start > 0 then
          let S : Int := (c.length : Int)
          { status := 206
            contentType := "application/octet-stream"
            contentDisposition := disp
            contentRange := "bytes " ++ toString start ++ "-" ++ toString (S - 1)
              ++ "/" ++ toString S
            contentLength := S - start
            cacheControl := ""
            pragma := ""
            expires := ""
            body := c.drop start.toNat }
        else serveFileModel disp c (some start)
      | none => serveFileModel disp c none

/-! ## Upload pipeline (`internal/server/http.go`, host mode)

The upload directory is the only mutable state the handlers touch; it is
modelled as an association list from file name (within the directory, whose
constant path prefix `filepath.Join` adds and `filepath.Base` removes) to
file content. -/

/-- The upload directory's contents. -/
abbrev DirState := List (String × Bytes)

/-- Look a name up in the directory (first match). -/
def lookupFS : DirState → String → Option Bytes
  | [], _ => none
  | (k, v) :: rest, n => if k = n then some v else lookupFS rest n

/-- Create or truncate-and-rewrite a file (`os.OpenFile` with
`O_CREATE|O_WRONLY|O_TRUNC` followed by a copy). -/
def setFS : DirState → String → Bytes → DirState
  | [], n, v => [(n, v)]
  | (k, w) :: rest, n, v =>
    if k = n then (n, v) :: rest else (k, w) :: setFS rest n v

/-- Delete a file (`os.Remove`). -/
def eraseFS : DirState → String → DirState
  | [], _ => []
  | (k, w) :: rest, n => if k = n then rest else (k, w) :: eraseFS rest n

/-- The `"base (i)ext"` collision candidate tried by `findUniqueFilename`. -/
def candidateName (base ext : String) (i : Nat) : String :=
  base ++ " (" ++ toString i ++ ")" ++ ext

/-- The collision loop of `findUniqueFilename`: try candidates `i`,
`i+1`, … while fuel lasts, returning the first whose name is free. -/
def findFrom (d : DirState) (base ext : String) : Nat → Nat → Option String
  | _, 0 => none
  | i, fuel + 1 =>
    let nm := candidateName base ext i
    if lookupFS d nm = none then some nm else findFrom d base ext (i + 1) fuel

/-- `findUniqueFilename`: keep the name when free, otherwise append
`" (1)"`, `" (2)"`, … (`i < 1000`, i.e. 999 candidates) to the stem until a
free name is found, falling back to a `_<UnixNano>` timestamp suffix.  The Go
function returns `filepath.Join(dir, name)`; the model returns the name
component, the directory prefix being constant. -/
def findUniqueFilename (d : DirState) (nowNanos : Nat) (name : String) : String :=
  let ext := extOf name
  let base := trimSuffixStr name ext
  if lookupFS d name = none then name
  else
    match findFrom d base ext 1 999 with
    | some nm => nm
    | none => base ++ "_" ++ toString nowNanos ++ ext

/-- The raw upload size ceiling (10 GiB). -/
def maxUploadSize : Int := 10737418240

/-- The raw path's success response
`{"success":true,"filename":"…","size":…}`. -/
def jsonOkResp (name : String) (size : Nat) : Response :=
  let b := "\x7b\"success\":true,\"filename\":\"" ++ name ++ "\",\"size\":"
    ++ toString size ++ "\x7d"
  { status := 200
    contentType := "application/json"
    contentDisposition := ""
    contentRange := ""
    contentLength := (b.length : Int)
    cacheControl := ""
    pragma := ""
    expires := ""
    body := strBytes b }

/-- `handleRawUpload`: size gate, percent-decode the declared filename,
sanitize it to a base name (rejecting `"."`, `".."`, `""`), disambiguate
against the existing directory, create the destination, stream the body to
it; on a mid-stream failure the deferred cleanup deletes the partial file
and a `500` is returned, otherwise a JSON success is returned only after the
full body is on disk. -/
def handleRawUpload (d : DirState) (r : Request) (encodedFilename : String)
    (nowNanos : Nat) : Response × DirState :=
  if r.contentLength > maxUploadSize then (errResp 413 "file too large", d)
  else
    match queryUnescape encodedFilename with
    | none => (errResp 400 "invalid filename", d)
    | some filename =>
      let name := baseName filename
      if name = "." ∨ name = ".." ∨ name = "" then (errResp 400 "invalid filename", d)
      else
        let outName := findUniqueFilename d nowNanos name
        if r.bodyBroken then
          (errResp 500 "stream error", eraseFS (setFS d outName r.bodyData) outName)
        else
          (jsonOkResp outName r.bodyData.length, setFS d outName r.bodyData)

/-- Add the no-cache headers the multipart path sets up front. -/
def withNoCache (resp : Response) : Response :=
  { resp with
      cacheControl := "no-store, no-cache, must-revalidate, max-age=0"
      pragma := "no-cache"
      expires := "0" }

/-- The multipart success response. -/
def okTextResp : Response :=
  { status := 200
    contentType := "text/plain; charset=utf-8"
    contentDisposition := ""
    contentRange := ""
    contentLength := 2
    cacheControl := ""
    pragma := ""
    expires := ""
    body := strBytes "ok" }

/-- The multipart loop of `handleUpload`: skip non-file parts and parts whose
base name is `"."` or `".."`, stream each remaining part to disk under its
sanitized base name (truncating any existing file of that name); a part whose
copy fails mid-stream answers `500` and leaves the partially written file in
place; with no file part saved the request is rejected with `400`. -/
def processParts (d : DirState) (saved : List (String × Nat)) :
    List Part → Response × DirState
  | [] =>
    if saved.isEmpty then (withNoCache (errResp 400 "no file provided"), d)
    else (withNoCache okTextResp, d)
  | part :: rest =>
    if part.fileName = "" then processParts d saved rest
    else
      let name := baseName part.fileName
      if name = "." ∨ name = ".." then processParts d saved rest
      else
        let d' := setFS d name part.data
        if part.broken then (withNoCache (errResp 500 "write error"), d')
        else processParts d' (saved ++ [(name, part.data.length)]) rest

/-- The static HTML upload form.  Modelled from the spec: the embedded asset
`static/upload.html` is an external collaborator whose contents the core
never inspects. -/
def uploadPageHTML : String := "<html>upload form</html>"

/-- The HTML response to `GET` on the upload endpoint. -/
def htmlResp (h : String) : Response :=
  { status := 200
    contentType := "text/html; charset=utf-8"
    contentDisposition := ""
    contentRange := ""
    contentLength := (h.length : Int)
    cacheControl := ""
    pragma := ""
    expires := ""
    body := strBytes h }

/-- `handleUpload`: token gate, then HTML form on `GET`, `405` on any other
non-`POST` method; a `POST` takes the raw fast path when the `X-File-Name`
header is present, and the multipart fallback otherwise. -/
def handleUpload (s : Session) (d : DirState) (r : Request) (nowNanos : Nat) :
    Response × DirState :=
  let p := trimPre r.path uploadRoot
  if p ≠ s.token then (errResp 403 "forbidden", d)
  else if r.method = "GET" then (htmlResp uploadPageHTML, d)
  else if r.method ≠ "POST" then (errResp 405 "method not allowed", d)
  else if r.xFileName ≠ "" then handleRawUpload d r r.xFileName nowNanos
  else processParts d [] r.parts

/-! ## Transfer client (`internal/client/receiver.go`) -/

/-- A request the client issues against the session URL: only the optional
`Range: bytes=n-` header varies. -/
structure ClientReq where
  rangeStart : Option Int
deriving DecidableEq, Repr

/-- The part of a response the client inspects, plus the body it streams. -/
structure ClientResp where
  status : Nat
  contentType : String
  contentDisposition : String
  contentLength : Int
  body : Bytes
deriving DecidableEq, Repr

/-- The value `Receive` returns: a saved path, the `"(stdout)"` sentinel for
inline text, or a terminating error. -/
inductive RcvRes where
  | ok (path : String)
  | stdoutSentinel
  | fail (msg : String)
deriving DecidableEq, Repr

/-- Everything observable about one `Receive` invocation: its return value,
the final local filesystem, the bytes written to the output sink, and the
trace of HTTP requests issued, in order. -/
structure RcvOut where
  res : RcvRes
  fs : DirState
  stdout : Bytes
  trace : List ClientReq
deriving DecidableEq, Repr

/-- `filenameFromResponse`: simplistic `Content-Disposition` parsing — split
on `;`, trim spaces, case-insensitively find a `filename=` part, strip the
literal `filename=` from the original part and trim surrounding quotes. -/
def firstFilename : List String → String
  | [] => ""
  | p :: rest =>
    let q := trimSpaces p
    if startsWithChars (toLowerStr q) "filename=" then
      trimQuotes (trimPre q "filename=")
    else firstFilename rest

/-- See `firstFilename`; `""` means no filename was found. -/
def filenameFromResponse (cd : String) : String :=
  if cd = "" then "" else firstFilename (splitOnChar cd ';')

/-- `client.Receive`, over an abstract network `serve : ClientReq → ClientResp`
(the session URL is fixed, so a request is determined by its range header):

1. issue an initial request; any status other than `200`/`206` is a
   terminating error;
2. a `text/plain` response without a disposition header streams the body to
   the output sink and returns the stdout sentinel, touching no file;
3. otherwise derive the destination name, then check the local destination:
   an existing, non-empty file shorter than the advertised total length (with
   overwrite not forced) is reopened for append and the request reissued with
   `Range: bytes=<local-length>-`, falling back to recreate-plus-full-request
   when the answer is not `206`; an existing file not fitting that shape
   (overwrite not forced) is a destination conflict; otherwise the
   destination is created fresh and a full request issued;
4. the (possibly partial) body is streamed to the destination. -/
def Receive (serve : ClientReq → ClientResp) (urlPath : String)
    (outputPath0 : String) (force : Bool) (fs0 : DirState) : RcvOut :=
  let req0 : ClientReq := ⟨none⟩
  let resp := serve req0
  if resp.status ≠ 200 ∧ resp.status ≠ 206 then
    ⟨RcvRes.fail ("http status " ++ toString resp.status), fs0, [], [req0]⟩
  else if startsWithChars resp.contentType "text/plain" = true ∧
      resp.contentDisposition = "" then
    ⟨RcvRes.stdoutSentinel, fs0, resp.body, [req0]⟩
  else
    let name0 := filenameFromResponse resp.contentDisposition
    let name :=
      if name0 = "" then
        let b := baseName urlPath
        if b = "" then "download.bin" else b
      else name0
    let outputPath := if outputPath0 = "" then name else outputPath0
    let totalSize := resp.contentLength
    match lookupFS fs0 outputPath with
    | some existing =>
      let existingSize : Int := (existing.length : Int)
      if force = false ∧ 0 < existingSize ∧ existingSize < totalSize then
        let req1 : ClientReq := ⟨some existingSize⟩
        let resp1 := serve req1
        if resp1.status ≠ 206 then
          let req2 : ClientReq := ⟨none⟩
          let resp2 := serve req2
          ⟨RcvRes.ok outputPath, setFS fs0 outputPath resp2.body, [],
            [req0, req1, req2]⟩
        else
          ⟨RcvRes.ok outputPath, setFS fs0 outputPath (existing ++ resp1.body), [],
            [req0, req1]⟩
      else if force = false then
        ⟨RcvRes.fail "destination exists; use --force to overwrite", fs0, [], [req0]⟩
      else
        let req1 : ClientReq := ⟨none⟩
        let resp1 := serve req1
        ⟨RcvRes.ok outputPath, setFS fs0 outputPath resp1.body, [], [req0, req1]⟩
    | none =>
      let req1 : ClientReq := ⟨none⟩
      let resp1 := serve req1
      ⟨RcvRes.ok outputPath, setFS fs0 outputPath resp1.body, [], [req0, req1]⟩

/-- The network as the client sees it when the peer is the warp-drop server:
every client request becomes a `GET` on the session's download URL, answered
by `handleDownload`. -/
def serverFor (s : Session) (fs : String → Option Node) :
    ClientReq → ClientResp :=
  fun cr =>
    let resp := handleDownload s fs
      { method := "GET"
        path := downloadRoot ++ s.token
        rangeStart := cr.rangeStart
        xFileName := ""
        contentLength := 0
        bodyData := []
        bodyBroken := false
        parts := [] }
    ⟨resp.status, resp.contentType, resp.contentDisposition, resp.contentLength,
      resp.body⟩

/-- `sendCmd` from `cmd/warp/main.go` building a session from stdin (or
`--text`) data: the text, even when empty, becomes `TextContent` and no
source path is set. -/
def sendStdinSession (iface tok data : String) : Session :=
  { interfaceName := iface
    token := tok
    srcPath := ""
    hostMode := false
    uploadDir := ""
    textContent := data }

/-! ## Supporting lemmas -/

theorem lookupFS_setFS_self (d : DirState) (n : String) (v : Bytes) :
    lookupFS (setFS d n v) n = some v := by
  induction d with
  | nil => simp [setFS, lookupFS]
  | cons kv rest ih =>
    obtain ⟨k, w⟩ := kv
    by_cases h : k = n
    · simp [setFS, h, lookupFS]
    · simp [setFS, h, lookupFS, ih]

theorem eraseFS_setFS (d : DirState) (n : String) (v : Bytes) :
    eraseFS (setFS d n v) n = eraseFS d n := by
  induction d with
  | nil => simp [setFS, eraseFS]
  | cons kv rest ih =>
    obtain ⟨k, w⟩ := kv
    by_cases h : k = n
    · simp [setFS, h, eraseFS]
    · simp [setFS, h, eraseFS, ih]

theorem lookupFS_eq_none_iff (d : DirState) (n : String) :
    lookupFS d n = none ↔ n ∉ d.map Prod.fst := by
  induction d with
  | nil => simp [lookupFS]
  | cons kv rest ih =>
    obtain ⟨k, w⟩ := kv
    by_cases h : k = n
    · simp [lookupFS, h]
    · simp [lookupFS, h, ih, Ne.symm h]

theorem eraseFS_of_none (d : DirState) (n : String) (h : lookupFS d n = none) :
    eraseFS d n = d := by
  induction d with
  | nil => simp [eraseFS]
  | cons kv rest ih =>
    obtain ⟨k, w⟩ := kv
    by_cases hk : k = n
    · simp [lookupFS, hk] at h
    · simp [lookupFS, hk] at h
      simp [eraseFS, hk, ih h]

theorem lookupFS_eraseFS_self (d : DirState) (n : String)
    (hnd : (d.map Prod.fst).Nodup) : lookupFS (eraseFS d n) n = none := by
  induction d with
  | nil => simp [eraseFS, lookupFS]
  | cons kv rest ih =>
    obtain ⟨k, w⟩ := kv
    simp only [List.map_cons, List.nodup_cons] at hnd
    by_cases h : k = n
    · subst h
      simp only [eraseFS, if_pos rfl]
      exact (lookupFS_eq_none_iff rest k).mpr hnd.1
    · simp [eraseFS, h, lookupFS, ih hnd.2]

theorem isPrefixOf_append_self (l m : List Char) : l.isPrefixOf (l ++ m) = true := by
  induction l with
  | nil => simp [List.isPrefixOf]
  | cons a as ih => simp [List.isPrefixOf, ih]

theorem trimPre_append (pre t : String) : trimPre (pre ++ t) pre = t := by
  have hsw : startsWithChars (pre ++ t) pre = true := by
    have := isPrefixOf_append_self pre.data t.data
    simp only [startsWithChars, String.data_append]
    exact this
  simp [trimPre, hsw, List.drop_left]

theorem findFrom_eq_some (d : DirState) (base ext : String) :
    ∀ (fuel start i : Nat), start ≤ i → i < start + fuel →
      (∀ j, start ≤ j → j < i → lookupFS d (candidateName base ext j) ≠ none) →
      lookupFS d (candidateName base ext i) = none →
      findFrom d base ext start fuel = some (candidateName base ext i) := by
  intro fuel
  induction fuel with
  | zero => omega
  | succ f ih =>
    intro start i hsi hif hbelow hfree
    by_cases h : lookupFS d (candidateName base ext start) = none
    · have : i = start := by
        by_contra hne
        exact hbelow start le_rfl (by omega) h
      subst this
      simp [findFrom, h]
    · have hlt : start < i := by
        rcases Nat.lt_or_ge start i with h' | h'
        · exact h'
        · exact absurd (hsi.antisymm h' ▸ hfree) h
      have := ih (start + 1) i hlt (by omega)
        (fun j hj1 hj2 => hbelow j (by omega) hj2) hfree
      simp [findFrom, h, this]

theorem findFrom_eq_none (d : DirState) (base ext : String) :
    ∀ (fuel start : Nat),
      (∀ j, start ≤ j → j < start + fuel →
        lookupFS d (candidateName base ext j) ≠ none) →
      findFrom d base ext start fuel = none := by
  intro fuel
  induction fuel with
  | zero => intro start _; rfl
  | succ f ih =>
    intro start htaken
    have h0 : lookupFS d (candidateName base ext start) ≠ none :=
      htaken start le_rfl (by omega)
    simp only [findFrom, if_neg h0]
    exact ih (start + 1) (fun j hj1 hj2 => htaken j (by omega) (by omega))

mutual

theorem zipEntriesOf_eq : ∀ (rel : String) (t : Node),
    zipEntriesOf rel t = (filesOf rel t).map (fun pc => ⟨pc.1, deflate pc.2⟩)
  | _, Node.file _ => rfl
  | rel, Node.dir es => by
    simpa [zipEntriesOf, filesOf] using zipEntriesList_eq rel es

theorem zipEntriesList_eq : ∀ (rel : String) (es : List (String × Node)),
    zipEntriesList rel es = (filesOfList rel es).map (fun pc => ⟨pc.1, deflate pc.2⟩)
  | _, [] => rfl
  | rel, (n, t) :: rest => by
    simp [zipEntriesList, filesOfList, zipEntriesOf_eq (relJoin rel n) t,
      zipEntriesList_eq rel rest]

end

mutual

theorem countFiles_eq_length : ∀ (rel : String) (t : Node),
    countFiles t = (filesOf rel t).length
  | _, Node.file _ => rfl
  | rel, Node.dir es => by
    simpa [countFiles, filesOf] using countFilesList_eq_length rel es

theorem countFilesList_eq_length : ∀ (rel : String) (es : List (String × Node)),
    countFilesList es = (filesOfList rel es).length
  | _, [] => rfl
  | rel, (n, t) :: rest => by
    simp [countFilesList, filesOfList, countFiles_eq_length (relJoin rel n) t,
      countFilesList_eq_length rel rest]

end

/-! ## Concrete fixtures used by witnesses and counterexamples -/

/-- A send-mode session serving the regular file `/srv/f.bin`. -/
def sessC : Session := ⟨"", "tok", "/srv/f.bin", false, "", ""⟩

/-- A filesystem holding the two-byte file `/srv/f.bin` = `[97, 98]`. -/
def fsC : String → Option Node :=
  fun p => if p = "/srv/f.bin" then some (Node.file [97, 98]) else none

/-- A filesystem holding the three-byte file `/srv/f.bin` = `[97, 98, 99]`. -/
def fsC3 : String → Option Node :=
  fun p => if p = "/srv/f.bin" then some (Node.file [97, 98, 99]) else none

/-- A host-mode session collecting uploads. -/
def hostSess : Session := ⟨"", "tok", "", true, "up", ""⟩

/-- A download request with a wrong token. -/
def reqBadD : Request := ⟨"GET", "/d/evil", none, "", 0, [], false, []⟩

/-- An upload request with a wrong token. -/
def reqBadU : Request := ⟨"POST", "/u/evil", none, "", 0, [], false, []⟩

/-- A correctly-tokened download request with no range header. -/
def reqFull : Request := ⟨"GET", "/d/tok", none, "", 0, [], false, []⟩

/-- A correctly-tokened download request with `Range: bytes=1-`. -/
def reqRange1 : Request := ⟨"GET", "/d/tok", some 1, "", 0, [], false, []⟩

/-- A correctly-tokened download request with `Range: bytes=2-`. -/
def reqRange2 : Request := ⟨"GET", "/d/tok", some 2, "", 0, [], false, []⟩

/-- A raw-path upload of `x.txt` with body `[104, 105]`. -/
def xUpload1 : Request := ⟨"POST", "/u/tok", none, "x.txt", 2, [104, 105], false, []⟩

/-- A second raw-path upload of `x.txt`, body `[106, 107]`. -/
def xUpload2 : Request := ⟨"POST", "/u/tok", none, "x.txt", 2, [106, 107], false, []⟩

/-- A raw-path upload of `f.bin` that breaks after `[1, 2]` was received. -/
def brokenRawReq : Request := ⟨"POST", "/u/tok", none, "f.bin", 5, [1, 2], true, []⟩

/-- A multipart upload whose single file part `f.bin` breaks after `[1, 2, 3]`
was written. -/
def brokenMultipartReq : Request :=
  ⟨"POST", "/u/tok", none, "", 5, [], false, [⟨"f.bin", [1, 2, 3], true⟩]⟩

/-! ## Claims -/

/-- C1: every request to the download or upload endpoint whose path suffix is
not byte-for-byte equal to the session token is answered `403 Forbidden` with
the fixed error body, independent of method, payload kind and request
content, and the upload directory is left untouched. -/
theorem c1_token_mismatch (s : Session) (fs : String → Option Node)
    (d : DirState) (r1 r2 : Request) (now : Nat)
    (hd : trimPre r1.path downloadRoot ≠ s.token)
    (hu : trimPre r2.path uploadRoot ≠ s.token) :
    handleDownload s fs r1 = errResp 403 "forbidden" ∧
    handleUpload s d r2 now = (errResp 403 "forbidden", d) := by
  constructor
  · simp [handleDownload, hd]
  · simp [handleUpload, hu]

theorem c1_token_mismatch_witness :
    handleDownload sessC fsC reqBadD = errResp 403 "forbidden" ∧
    handleUpload hostSess [] reqBadU 0 = (errResp 403 "forbidden", []) :=
  c1_token_mismatch sessC fsC [] reqBadD reqBadU 0 (by decide) (by decide)

/-- C9: for every directory tree, `ZipDirectory` emits exactly one member
per regular file (directories contribute none), each member named by the
file's path relative to the root, and extracting the archive reproduces every
file's content byte-for-byte: archive-then-extract is the identity on the
tree's regular files. -/
theorem c9_zip_roundtrip (es : List (String × Node)) :
    unzipArchive (ZipDirectory (Node.dir es)) = filesOf "" (Node.dir es) ∧
    (ZipDirectory (Node.dir es)).length = countFiles (Node.dir es) ∧
    (ZipDirectory (Node.dir es)).map ZipEntry.name =
      (filesOf "" (Node.dir es)).map Prod.fst := by
  have hz := zipEntriesOf_eq "" (Node.dir es)
  refine ⟨?_, ?_, ?_⟩
  · rw [ZipDirectory, hz]
    simp only [unzipArchive, inflate, deflate, List.map_map, Function.comp]
    exact List.map_id _
  · rw [ZipDirectory, hz, countFiles_eq_length ""]
    simp
  · rw [ZipDirectory, hz]
    simp

/-- C10: a session whose text blob is empty (for example `send --stdin` with
empty input) never takes the text-serving path: `handleDownload` treats it as
file mode, and since no source path is set the correctly-tokened request gets
`404 not found` rather than an empty `text/plain` `200`. -/
theorem c10_empty_text_is_file_mode (iface tok : String)
    (fs : String → Option Node) (r : Request)
    (h : trimPre r.path downloadRoot = tok) :
    handleDownload (sendStdinSession iface tok "") fs r = errResp 404 "not found" ∧
    handleDownload (sendStdinSession iface tok "") fs r ≠ textResp "" := by
  have h1 : handleDownload (sendStdinSession iface tok "") fs r =
      errResp 404 "not found" := by
    simp [handleDownload, sendStdinSession, h, statFS]
  refine ⟨h1, ?_⟩
  rw [h1]
  decide

theorem c10_empty_text_is_file_mode_witness :
    handleDownload (sendStdinSession "" "tok" "") fsC reqFull =
      errResp 404 "not found" ∧
    handleDownload (sendStdinSession "" "tok" "") fsC reqFull ≠ textResp "" :=
  c10_empty_text_is_file_mode "" "tok" fsC reqFull (by decide)

/-- C6: collisions of a sanitized upload filename are resolved
deterministically: a free name is kept; otherwise `" (1)"`, `" (2)"`, … are
appended to the stem and the first free candidate (here the `i`-th) is
chosen; if all 999 candidates are taken the timestamp fallback is used.  In
particular, uploading `x.txt` twice to the same host session yields the two
distinct files `x.txt` and `x (1).txt`. -/
theorem c6_unique_naming (d : DirState) (now i : Nat) (name : String)
    (htaken : lookupFS d name ≠ none)
    (hi1 : 1 ≤ i) (hi999 : i ≤ 999)
    (hbelow : ∀ j, j < i → 1 ≤ j →
      lookupFS d (candidateName (trimSuffixStr name (extOf name)) (extOf name) j)
        ≠ none)
    (hfree :
      lookupFS d (candidateName (trimSuffixStr name (extOf name)) (extOf name) i)
        = none) :
    findUniqueFilename d now name =
      candidateName (trimSuffixStr name (extOf name)) (extOf name) i ∧
    (∀ (d0 : DirState) (now0 : Nat) (nm : String),
      lookupFS d0 nm = none → findUniqueFilename d0 now0 nm = nm) ∧
    ((∀ j, j < 1000 → 1 ≤ j →
        lookupFS d (candidateName (trimSuffixStr name (extOf name)) (extOf name) j)
          ≠ none) →
      findUniqueFilename d now name =
        trimSuffixStr name (extOf name) ++ "_" ++ toString now ++ extOf name) ∧
    (handleUpload hostSess [] xUpload1 11).1.status = 200 ∧
    (handleUpload hostSess [] xUpload1 11).2 = [("x.txt", [104, 105])] ∧
    (handleUpload hostSess [("x.txt", [104, 105])] xUpload2 12).1.status = 200 ∧
    (handleUpload hostSess [("x.txt", [104, 105])] xUpload2 12).2 =
      [("x.txt", [104, 105]), ("x (1).txt", [106, 107])] := by
  refine ⟨?_, ?_, ?_, by decide, by decide, by decide, by decide⟩
  · have hf := findFrom_eq_some d (trimSuffixStr name (extOf name)) (extOf name)
      999 1 i hi1 (by omega) (fun j hj1 hj2 => hbelow j hj2 hj1) hfree
    simp [findUniqueFilename, htaken, hf]
  · intro d0 now0 nm h
    simp [findUniqueFilename, h]
  · intro hall
    have hn := findFrom_eq_none d (trimSuffixStr name (extOf name)) (extOf name)
      999 1 (fun j hj1 hj2 => hall j (by omega) hj1)
    simp [findUniqueFilename, htaken, hn]

theorem c6_unique_naming_witness :
    findUniqueFilename [("x.txt", [104, 105])] 12 "x.txt" = "x (1).txt" := by
  have h := (c6_unique_naming [("x.txt", [104, 105])] 12 1 "x.txt" (by decide)
    (by decide) (by decide) (fun j hj1 hj2 => absurd hj2 (by omega)) (by decide)).1
  rw [h]
  decide

/-- C3: a correctly-tokened download of a file of size `S` carrying
`Range: bytes=N-` with `0 < N < S` is answered `206` with
`Content-Range: bytes N-(S-1)/S`, `Content-Length S-N` and body equal to
bytes `N..S-1` of the source; without a range header the answer is a full
`200`. -/
theorem c3_range_download (s : Session) (fs : String → Option Node) (c : Bytes)
    (N : Int) (r1 r2 : Request)
    (h1 : trimPre r1.path downloadRoot = s.token)
    (h2 : trimPre r2.path downloadRoot = s.token)
    (htext : s.textContent = "")
    (hstat : statFS fs s.srcPath = some (Node.file c))
    (hr1 : r1.rangeStart = some N)
    (hr2 : r2.rangeStart = none)
    (hN : 0 < N) (_hNS : N < (c.length : Int)) :
    (handleDownload s fs r1).status = 206 ∧
    (handleDownload s fs r1).contentRange =
      "bytes " ++ toString N ++ "-" ++ toString ((c.length : Int) - 1) ++ "/" ++
        toString ((c.length : Int)) ∧
    (handleDownload s fs r1).contentLength = (c.length : Int) - N ∧
    (handleDownload s fs r1).body = c.drop N.toNat ∧
    (handleDownload s fs r2).status = 200 ∧
    (handleDownload s fs r2).body = c ∧
    (handleDownload s fs r2).contentLength = (c.length : Int) := by
  refine ⟨?_, ?_, ?_, ?_, ?_, ?_, ?_⟩ <;>
    simp [handleDownload, serveFileModel, h1, h2, htext, hstat, hr1, hr2, hN]

theorem c3_range_download_witness :
    (handleDownload sessC fsC3 reqRange1).status = 206 ∧
    (handleDownload sessC fsC3 reqRange1).contentRange = "bytes 1-2/3" ∧
    (handleDownload sessC fsC3 reqRange1).contentLength = 2 ∧
    (handleDownload sessC fsC3 reqRange1).body = [98, 99] ∧
    (handleDownload sessC fsC3 reqFull).status = 200 ∧
    (handleDownload sessC fsC3 reqFull).body = [97, 98, 99] := by
  have h := c3_range_download sessC fsC3 [97, 98, 99] 1 reqRange1 reqFull
    (by decide) (by decide) (by decide) rfl (by decide) (by decide)
    (by decide) (by decide)
  refine ⟨h.1, ?_, ?_, ?_, h.2.2.2.2.1, h.2.2.2.2.2.1⟩
  · rw [h.2.1]; decide
  · rw [h.2.2.1]; decide
  · rw [h.2.2.2.1]; decide

/-- C4, counterexample: `Range: bytes=2-` on the two-byte file is answered
`206` with the unsatisfiable descriptor `bytes 2-1/2` and an empty body — not
the full `200` transfer the claim requires for an offset at or beyond the
file's length. -/
theorem c4_counterexample :
    (handleDownload sessC fsC reqRange2).status = 206 ∧
    (handleDownload sessC fsC reqRange2).contentRange = "bytes 2-1/2" ∧
    (handleDownload sessC fsC reqRange2).body = [] ∧
    ¬(handleDownload sessC fsC reqRange2).status = 200 := by decide

/-- C4, amended: seeking past end-of-file succeeds on a regular file, so a
resume offset `N > 0` at or beyond the total length is not honored by falling
back to `200`: the server still answers `206`, with
`Content-Range: bytes N-(S-1)/S` and an empty body; the request is not
failed. -/
theorem c4_range_beyond_amended (s : Session) (fs : String → Option Node)
    (c : Bytes) (N : Int) (r : Request)
    (htok : trimPre r.path downloadRoot = s.token)
    (htext : s.textContent = "")
    (hstat : statFS fs s.srcPath = some (Node.file c))
    (hr : r.rangeStart = some N)
    (hN : 0 < N)
    (hbeyond : (c.length : Int) ≤ N) :
    handleDownload s fs r =
      { status := 206
        contentType := "application/octet-stream"
        contentDisposition := "attachment; filename=\"" ++ baseName s.srcPath ++ "\""
        contentRange := "bytes " ++ toString N ++ "-" ++
          toString ((c.length : Int) - 1) ++ "/" ++ toString ((c.length : Int))
        contentLength := (c.length : Int) - N
        cacheControl := ""
        pragma := ""
        expires := ""
        body := [] } := by
  have hdrop : c.drop N.toNat = [] := by
    apply List.drop_eq_nil_of_le
    omega
  simp [handleDownload, htok, htext, hstat, hr, hN, hdrop]

theorem c4_range_beyond_amended_witness :
    (handleDownload sessC fsC reqRange2).status = 206 ∧
    (handleDownload sessC fsC reqRange2).body = [] := by
  have h := c4_range_beyond_amended sessC fsC [97, 98] 2 reqRange2 (by decide)
    (by decide) rfl (by decide) (by decide) (by decide)
  rw [h]
  decide

/-- C5, counterexample: a multipart upload whose single file part dies
mid-stream answers `500` but leaves the truncated file `f.bin` in the upload
directory — the multipart fallback path does not delete partial artifacts. -/
theorem c5_counterexample :
    (handleUpload hostSess [] brokenMultipartReq 9).1.status = 500 ∧
    lookupFS (handleUpload hostSess [] brokenMultipartReq 9).2 "f.bin" =
      some [1, 2, 3] ∧
    ¬(handleUpload hostSess [] brokenMultipartReq 9).2 = [] := by decide

/-- C5, amended: on the raw fast path a mid-stream failure deletes the
partially written destination — the chosen unique name is absent afterwards,
and when the declared sanitized name was not already present the directory is
restored exactly — while success (`200` with the JSON body) is reported only
once the full body is on disk.  (The multipart fallback path, by contrast,
leaves partial files in place; see the counterexample.) -/
theorem c5_raw_cleanup_amended (s : Session) (d : DirState) (r : Request)
    (now : Nat) (g : String)
    (htok : trimPre r.path uploadRoot = s.token)
    (hmethod : r.method = "POST")
    (hxf : r.xFileName ≠ "")
    (hcl : r.contentLength ≤ maxUploadSize)
    (hdec : queryUnescape r.xFileName = some g)
    (hname : ¬(baseName g = "." ∨ baseName g = ".." ∨ baseName g = "")) :
    (r.bodyBroken = true →
      handleUpload s d r now =
        (errResp 500 "stream error",
          eraseFS (setFS d (findUniqueFilename d now (baseName g)) r.bodyData)
            (findUniqueFilename d now (baseName g)))) ∧
    (r.bodyBroken = true → (d.map Prod.fst).Nodup →
      lookupFS (handleUpload s d r now).2 (findUniqueFilename d now (baseName g))
        = none) ∧
    (r.bodyBroken = true → lookupFS d (baseName g) = none →
      (handleUpload s d r now).2 = d) ∧
    (r.bodyBroken = false →
      (handleUpload s d r now).1 =
        jsonOkResp (findUniqueFilename d now (baseName g)) r.bodyData.length ∧
      lookupFS (handleUpload s d r now).2 (findUniqueFilename d now (baseName g))
        = some r.bodyData) := by
  have hraw : handleUpload s d r now = handleRawUpload d r r.xFileName now := by
    simp [handleUpload, htok, hmethod, hxf]
  have hsize : ¬r.contentLength > maxUploadSize := not_lt.mpr hcl
  refine ⟨?_, ?_, ?_, ?_⟩
  · intro hb
    rw [hraw]
    simp [handleRawUpload, hsize, hdec, hname, hb]
  · intro hb hnd
    rw [hraw]
    simp only [handleRawUpload, if_neg hsize, hdec, hb]
    simp only [if_neg hname, if_true]
    rw [eraseFS_setFS]
    exact lookupFS_eraseFS_self d _ hnd
  · intro hb hfree
    have ho : findUniqueFilename d now (baseName g) = baseName g := by
      simp [findUniqueFilename, hfree]
    rw [hraw]
    simp only [handleRawUpload, if_neg hsize, hdec, hb]
    simp only [if_neg hname, if_true]
    rw [ho, eraseFS_setFS, eraseFS_of_none d (baseName g) hfree]
  · intro hb
    rw [hraw]
    simp [handleRawUpload, hsize, hdec, hname, hb, lookupFS_setFS_self]

theorem c5_raw_cleanup_amended_witness :
    (handleUpload hostSess [] brokenRawReq 3).2 = [] ∧
    (handleUpload hostSess [] brokenRawReq 3).1.status = 500 := by
  have h := c5_raw_cleanup_amended hostSess [] brokenRawReq 3 "f.bin" (by decide)
    (by decide) (by decide) (by decide) (by decide) (by decide)
  refine ⟨h.2.2.1 (by decide) (by decide), ?_⟩
  rw [h.1 (by decide)]
  decide

/-- A text-mode session serving the blob `"hello"`. -/
def textSess : Session := ⟨"", "tok", "", false, "", "hello"⟩

/-- C8: a correctly-tokened request against a text-mode session (non-empty
blob `T`) is answered with the entire blob in one `text/plain` response
without attachment disposition, and the client streams that body verbatim to
its output sink, returns the stdout sentinel, issues no further request and
creates or modifies no file. -/
theorem c8_text_transfer (s : Session) (fs : String → Option Node) (r : Request)
    (urlPath out : String) (force : Bool) (fs0 : DirState)
    (htok : trimPre r.path downloadRoot = s.token)
    (htext : s.textContent ≠ "") :
    handleDownload s fs r = textResp s.textContent ∧
    Receive (serverFor s fs) urlPath out force fs0 =
      ⟨RcvRes.stdoutSentinel, fs0, strBytes s.textContent, [⟨none⟩]⟩ := by
  have h1 : handleDownload s fs r = textResp s.textContent := by
    simp [handleDownload, htok, htext]
  have h2 : serverFor s fs ⟨none⟩ =
      ⟨200, "text/plain; charset=utf-8", "", (s.textContent.length : Int),
        strBytes s.textContent⟩ := by
    have h1' : handleDownload s fs
        ⟨"GET", downloadRoot ++ s.token, none, "", 0, [], false, []⟩ =
        textResp s.textContent := by
      simp [handleDownload, trimPre_append, htext]
    simp [serverFor, h1', textResp]
  have hsw : startsWithChars "text/plain; charset=utf-8" "text/plain" = true := by
    decide
  refine ⟨h1, ?_⟩
  simp [Receive, h2, hsw]

theorem c8_text_transfer_witness :
    handleDownload textSess fsC reqFull = textResp "hello" ∧
    Receive (serverFor textSess fsC) "/d/tok" "" false [] =
      ⟨RcvRes.stdoutSentinel, [], strBytes "hello", [⟨none⟩]⟩ :=
  c8_text_transfer textSess fsC reqFull "/d/tok" "" false [] (by decide) (by decide)

/-- C7, counterexample: with the destination already complete (local `"o"`
holds the full two-byte remote), `Receive` does fail with the
destination-conflict error and leaves the file unchanged — but only after
issuing the initial request: the request trace is non-empty, refuting
"before performing any network activity". -/
theorem c7_counterexample :
    (Receive (serverFor sessC fsC) "/d/tok" "o" false [("o", [97, 98])]).res =
      RcvRes.fail "destination exists; use --force to overwrite" ∧
    (Receive (serverFor sessC fsC) "/d/tok" "o" false [("o", [97, 98])]).trace =
      [⟨none⟩] ∧
    ¬(Receive (serverFor sessC fsC) "/d/tok" "o" false [("o", [97, 98])]).trace
      = [] := by decide

/-- C7, amended: when the destination exists and is not resumable (not both
non-empty and shorter than the advertised total length) and overwrite is not
forced, `Receive` fails with the destination-conflict error after issuing
exactly the one initial header-fetching request — before any download
request — and the local filesystem is left unchanged. -/
theorem c7_conflict_amended (serve : ClientReq → ClientResp)
    (urlPath out : String) (fs0 : DirState) (ex : Bytes)
    (hst : (serve ⟨none⟩).status = 200)
    (hnt : ¬(startsWithChars (serve ⟨none⟩).contentType "text/plain" = true ∧
      (serve ⟨none⟩).contentDisposition = ""))
    (hout : out ≠ "")
    (hex : lookupFS fs0 out = some ex)
    (hnr : ¬(0 < (ex.length : Int) ∧
      (ex.length : Int) < (serve ⟨none⟩).contentLength)) :
    Receive serve urlPath out false fs0 =
      ⟨RcvRes.fail "destination exists; use --force to overwrite", fs0, [],
        [⟨none⟩]⟩ := by
  have hc1 : ¬((serve ⟨none⟩).status ≠ 200 ∧ (serve ⟨none⟩).status ≠ 206) := by
    simp [hst]
  have hc3 : ¬(false = false ∧ 0 < (ex.length : Int) ∧
      (ex.length : Int) < (serve ⟨none⟩).contentLength) := by
    simpa using hnr
  simp only [Receive, if_neg hc1, if_neg hnt, if_neg hout, hex]
  have hP : ¬(True ∧ 0 < (ex.length : Int) ∧
      (ex.length : Int) < (serve ⟨none⟩).contentLength) := by
    simpa using hnr
  rw [if_neg hP, if_pos trivial]

theorem c7_conflict_amended_witness :
    Receive (serverFor sessC fsC) "/d/tok" "o" false [("o", [97, 98])] =
      ⟨RcvRes.fail "destination exists; use --force to overwrite",
        [("o", [97, 98])], [], [⟨none⟩]⟩ :=
  c7_conflict_amended (serverFor sessC fsC) "/d/tok" "o" [("o", [97, 98])]
    [97, 98] (by decide) (by decide) (by decide) (by decide) (by decide)

/-- C2, counterexample: the remote file is `[97, 98]` but the existing
one-byte destination `[88]` is not a prefix of it; the resumed transfer
appends the remote's tail, producing `[88, 98]` — not the complete remote
file the claim promises. -/
theorem c2_counterexample :
    (Receive (serverFor sessC fsC) "/d/tok" "o" false [("o", [88])]).fs =
      [("o", [88, 98])] ∧
    (serverFor sessC fsC ⟨none⟩).body = [97, 98] ∧
    ¬([88, 98] : Bytes) = [97, 98] := by decide

/-- C2, amended: an existing, non-empty destination shorter than the remote's
advertised length (overwrite not forced) is resumed: the client reissues the
request with `Range: bytes=<local-length>-`; if that request is not answered
`206` it recreates the destination and reissues a full request, after which
the destination holds the complete remote file; if it is answered `206` the
destination holds the local bytes followed by the remote bytes from the local
length onward — equal to the complete remote file provided the local content
is a prefix of the remote file. -/
theorem c2_resume_amended (serve : ClientReq → ClientResp)
    (urlPath out : String) (fs0 : DirState) (ex : Bytes)
    (hst : (serve ⟨none⟩).status = 200)
    (hnt : ¬(startsWithChars (serve ⟨none⟩).contentType "text/plain" = true ∧
      (serve ⟨none⟩).contentDisposition = ""))
    (hlen : (serve ⟨none⟩).contentLength = ((serve ⟨none⟩).body.length : Int))
    (hout : out ≠ "")
    (hex : lookupFS fs0 out = some ex)
    (hpos : 0 < ex.length)
    (hshort : ex.length < (serve ⟨none⟩).body.length)
    (hq : (serve ⟨some (ex.length : Int)⟩).status = 206 →
      (serve ⟨some (ex.length : Int)⟩).body = (serve ⟨none⟩).body.drop ex.length) :
    (Receive serve urlPath out false fs0).res = RcvRes.ok out ∧
    (Receive serve urlPath out false fs0).trace =
      (if (serve ⟨some (ex.length : Int)⟩).status = 206 then
        [⟨none⟩, ⟨some (ex.length : Int)⟩]
      else [⟨none⟩, ⟨some (ex.length : Int)⟩, ⟨none⟩]) ∧
    (¬(serve ⟨some (ex.length : Int)⟩).status = 206 →
      lookupFS (Receive serve urlPath out false fs0).fs out =
        some (serve ⟨none⟩).body) ∧
    ((serve ⟨some (ex.length : Int)⟩).status = 206 →
      lookupFS (Receive serve urlPath out false fs0).fs out =
        some (ex ++ (serve ⟨none⟩).body.drop ex.length)) ∧
    ((serve ⟨some (ex.length : Int)⟩).status = 206 →
      ex = (serve ⟨none⟩).body.take ex.length →
      lookupFS (Receive serve urlPath out false fs0).fs out =
        some (serve ⟨none⟩).body) := by
  have hc1 : ¬((serve ⟨none⟩).status ≠ 200 ∧ (serve ⟨none⟩).status ≠ 206) := by
    simp [hst]
  have h3 : (false = false ∧ 0 < (ex.length : Int) ∧
      (ex.length : Int) < (serve ⟨none⟩).contentLength) :=
    ⟨rfl, by exact_mod_cast hpos, by rw [hlen]; exact_mod_cast hshort⟩
  have key : Receive serve urlPath out false fs0 =
      if (serve ⟨some (ex.length : Int)⟩).status ≠ 206 then
        ⟨RcvRes.ok out, setFS fs0 out (serve ⟨none⟩).body, [],
          [⟨none⟩, ⟨some (ex.length : Int)⟩, ⟨none⟩]⟩
      else
        ⟨RcvRes.ok out,
          setFS fs0 out (ex ++ (serve ⟨some (ex.length : Int)⟩).body), [],
          [⟨none⟩, ⟨some (ex.length : Int)⟩]⟩ := by
    simp only [Receive, if_neg hc1, if_neg hnt, if_neg hout, hex]
    rw [if_pos ⟨trivial, h3.2⟩]
  by_cases h206 : (serve ⟨some (ex.length : Int)⟩).status = 206
  · have hkey : Receive serve urlPath out false fs0 =
        ⟨RcvRes.ok out,
          setFS fs0 out (ex ++ (serve ⟨some (ex.length : Int)⟩).body), [],
          [⟨none⟩, ⟨some (ex.length : Int)⟩]⟩ := by
      rw [key, if_neg (by simp [h206])]
    refine ⟨by rw [hkey], by rw [hkey]; simp [h206],
      fun hne => absurd h206 hne, ?_, ?_⟩
    · intro _
      rw [hkey, hq h206]
      exact lookupFS_setFS_self fs0 out _
    · intro _ hpre
      have hcat : ex ++ (serve ⟨none⟩).body.drop ex.length =
          (serve ⟨none⟩).body := by
        nth_rewrite 1 [hpre]
        exact List.take_append_drop ex.length (serve ⟨none⟩).body
      rw [hkey, hq h206, hcat]
      exact lookupFS_setFS_self fs0 out _
  · have hkey : Receive serve urlPath out false fs0 =
        ⟨RcvRes.ok out, setFS fs0 out (serve ⟨none⟩).body, [],
          [⟨none⟩, ⟨some (ex.length : Int)⟩, ⟨none⟩]⟩ := by
      rw [key, if_pos h206]
    refine ⟨by rw [hkey], by rw [hkey]; simp [h206], ?_,
      fun h => absurd h h206, fun h => absurd h h206⟩
    intro _
    rw [hkey]
    exact lookupFS_setFS_self fs0 out _

theorem c2_resume_amended_witness :
    lookupFS (Receive (serverFor sessC fsC3) "/d/tok" "o" false
        [("o", [97])]).fs "o" = some [97, 98, 99] ∧
    (Receive (serverFor sessC fsC3) "/d/tok" "o" false [("o", [97])]).trace =
      [⟨none⟩, ⟨some 1⟩] := by
  have h := c2_resume_amended (serverFor sessC fsC3) "/d/tok" "o" [("o", [97])]
    [97] (by decide) (by decide) (by decide) (by decide) (by decide) (by decide)
    (by decide) (by decide)
  constructor
  · have h5 := h.2.2.2.2 (by decide) (by decide)
    rw [h5]
    decide
  · have ht := h.2.1
    rw [ht]
    decide

end WarpDrop
